import Mathlib

/-
Shallow embedding of the community-dashboard leaderboard pipeline
(src/scripts/generateLeaderboard.ts and the people route in src/unnamed/part_001).

Conventions used throughout:
* JavaScript strings are Lean `String`; string operations (slice, split,
  endsWith, toLowerCase, includes) are embedded as structurally recursive
  functions over `String.data` so that every definition evaluates inside the
  kernel.
* Timestamps are ISO-8601 UTC strings; for such equal-format strings the
  chronological order of `new Date(s)` coincides with code-unit lexicographic
  order, so JS `Date` comparisons are embedded as string comparisons.
* JavaScript plain-object records and `Map`s with string keys are embedded as
  insertion-ordered association lists: updating an existing key rewrites the
  entry in place, a new key is appended at the end.
* Point values are `Int` (JS numbers restricted to integers by the code).
-/

namespace CommunityDashboard

/-- Code-unit lexicographic less-or-equal on character lists; embeds JS string
comparison (and, applied to ISO-8601 timestamps, JS Date comparison). -/
def charListLe : List Char → List Char → Bool
  | [], _ => true
  | _ :: _, [] => false
  | a :: as, b :: bs => if a < b then true else if b < a then false else charListLe as bs

/-- Code-unit lexicographic strict less-than on character lists. -/
def charListLt : List Char → List Char → Bool
  | [], [] => false
  | [], _ :: _ => true
  | _ :: _, [] => false
  | a :: as, b :: bs => if a < b then true else if b < a then false else charListLt as bs

/-- Embeds JS string less-or-equal. -/
def strLe (s t : String) : Bool := charListLe s.data t.data

/-- Embeds JS string strict less-than. -/
def strLt (s t : String) : Bool := charListLt s.data t.data

/-- Embeds JS String.prototype.endsWith. -/
def endsWithStr (s pat : String) : Bool := List.isSuffixOf pat.data s.data

/-- Embeds JS String.prototype.startsWith. -/
def startsWithStr (s pat : String) : Bool := List.isPrefixOf pat.data s.data

/-- Embeds JS String.prototype.toLowerCase (ASCII cases, the only ones used). -/
def lowerStr (s : String) : String := ⟨s.data.map Char.toLower⟩

/-- Embeds JS String.prototype.includes: pat occurs as a contiguous substring. -/
def containsStr (s pat : String) : Bool := (s.data.tails).any (fun t => List.isPrefixOf pat.data t)

/-- Embeds a JS string slice from 0 of length n, such as occured_at.slice(0, 10). -/
def takeChars (n : Nat) (s : String) : String := ⟨s.data.take n⟩

/-- Embeds a JS date.split with separator T taking the first component: the
longest prefix before the first T character. -/
def splitHeadT (s : String) : String := ⟨s.data.takeWhile (fun c => c ≠ 'T')⟩

/-- Character pass of sanitizeTitle (generateLeaderboard.ts lines 264-270):
square brackets removed, each colon replaced by the three characters of a
spaced dash. -/
def sanitizeChars : List Char → List Char
  | [] => []
  | c :: cs =>
    if c = '[' ∨ c = ']' then sanitizeChars cs
    else if c = ':' then ' ' :: '-' :: ' ' :: sanitizeChars cs
    else c :: sanitizeChars cs

/-- Collapses runs of spaces to a single space, the effect of the whitespace
regex replacement in sanitizeTitle once every whitespace character has been
mapped to a space. -/
def squeezeSpaces : List Char → List Char
  | [] => []
  | [c] => [c]
  | a :: b :: rest =>
    if a = ' ' ∧ b = ' ' then squeezeSpaces (b :: rest)
    else a :: squeezeSpaces (b :: rest)

/-- Embeds String.prototype.trim on the already-collapsed character list. -/
def trimSpaces (l : List Char) : List Char :=
  ((l.dropWhile (fun c => c.isWhitespace)).reverse.dropWhile (fun c => c.isWhitespace)).reverse

/-- Embeds sanitizeTitle (generateLeaderboard.ts lines 264-271): a missing or
empty title becomes null; otherwise brackets are stripped, colons become
spaced dashes, whitespace runs collapse to one space, and the ends are trimmed. -/
def sanitizeTitle (title : Option String) : Option String :=
  match title with
  | none => none
  | some s =>
    if s = "" then none
    else some ⟨trimSpaces (squeezeSpaces ((sanitizeChars s.data).map (fun c => if c.isWhitespace then ' ' else c)))⟩

/-- Count-and-points cell of an activity_breakdown record (generateLeaderboard.ts
lines 178-179). -/
structure Stats where
  count : Nat
  points : Int
deriving DecidableEq

/-- RawActivity (generateLeaderboard.ts lines 159-165). The type field holds one
of the seven fixed labels. -/
structure RawActivity where
  type : String
  occured_at : String
  title : Option String
  link : Option String
  points : Int
deriving DecidableEq

/-- DailyActivity (generateLeaderboard.ts lines 167-171). -/
structure DailyActivity where
  date : String
  count : Nat
  points : Int
deriving DecidableEq

/-- Contributor (generateLeaderboard.ts lines 173-182). activity_breakdown is a
string-keyed record, embedded as an insertion-ordered association list. -/
structure Contributor where
  username : String
  name : Option String
  avatar_url : Option String
  role : String
  total_points : Int
  activity_breakdown : List (String × Stats)
  daily_activity : List DailyActivity
  raw_activities : List RawActivity
deriving DecidableEq

/-- Embeds Map.prototype.get on a string-keyed map. -/
def mapGet {α : Type} : List (String × α) → String → Option α
  | [], _ => none
  | (k', v) :: rest, k => if k' = k then some v else mapGet rest k

/-- Embeds Map.prototype.set: an existing key is updated in place, a new key is
appended at the end (insertion order preserved). -/
def mapSet {α : Type} : List (String × α) → String → α → List (String × α)
  | [], k, v => [(k, v)]
  | (k', v') :: rest, k, v => if k' = k then (k', v) :: rest else (k', v') :: mapSet rest k v

/-- The contributor map of generateYear, a Map from username to Contributor. -/
abbrev CMap := List (String × Contributor)

/-- Modelled from the spec: the static membership set coreTeamMembers lives in
lib/team-data.ts, which is not among the provided sources; no claim depends on
its contents, so it is kept as a fixed list. -/
def coreTeamUsernames : List String := []

/-- Modelled from the spec: the static membership set alumniMembers lives in
lib/team-data.ts, which is not among the provided sources; no claim depends on
its contents, so it is kept as a fixed list. -/
def alumniUsernames : List String := []

/-- A GitHub account as it appears on fetched items: login, optional display
name, optional avatar, optional account type string. -/
structure GhUser where
  login : String
  name : Option String
  avatar_url : Option String
  type : Option String
deriving DecidableEq

/-- The truthiness test user.type and user.type not equal to the string User of
isBotUser: true when the type field is present, nonempty and not User. -/
def nonHumanType (t : Option String) : Bool :=
  match t with
  | some s => s != "" && s != "User"
  | none => false

/-- Embeds isBotUser (generateLeaderboard.ts lines 273-277): missing or empty
login, a non-User account type, or a login ending in the bot bracket suffix. -/
def isBotUser (user : Option GhUser) : Bool :=
  match user with
  | none => true
  | some u =>
    if u.login = "" then true
    else if nonHumanType u.type then true
    else endsWithStr u.login "[bot]"

/-- Role lookup of ensureUser (generateLeaderboard.ts lines 357-364):
case-insensitive membership in the core team, then the alumni set. -/
def roleFor (login : String) : String :=
  let l := lowerStr login
  if coreTeamUsernames.contains l then "Maintainer"
  else if alumniUsernames.contains l then "Alumni"
  else "Contributor"

/-- The fresh Contributor built by ensureUser (generateLeaderboard.ts lines
366-375). -/
def newContributor (user : GhUser) : Contributor :=
  { username := user.login
    name := user.name
    avatar_url := user.avatar_url
    role := roleFor user.login
    total_points := 0
    activity_breakdown := {}
    daily_activity := []
    raw_activities := [] }

/-- Record bump of addActivity on activity_breakdown (lines 391-393): create the
cell at zero when absent, then increment count and add points; a new key is
appended at the end, an existing key is updated in place. -/
def bumpBreakdown : List (String × Stats) → String → Int → List (String × Stats)
  | [], ty, pts => [(ty, ⟨1, pts⟩)]
  | (k, s) :: rest, ty, pts =>
    if k = ty then (k, ⟨s.count + 1, s.points + pts⟩) :: rest
    else (k, s) :: bumpBreakdown rest ty pts

/-- Daily-activity bump of addActivity (lines 395-401): find the day in the
list and increment it in place, otherwise push a fresh day at the end. -/
def bumpDailyList : List DailyActivity → String → Int → List DailyActivity
  | [], day, pts => [⟨day, 1, pts⟩]
  | d :: rest, day, pts =>
    if d.date = day then ⟨d.date, d.count + 1, d.points + pts⟩ :: rest
    else d :: bumpDailyList rest day pts

/-- Embeds addActivity (generateLeaderboard.ts lines 380-410): adds the points
to the running total, bumps the breakdown and the daily list, and appends the
raw activity with sanitized title and the link defaulted to null. -/
def addActivity (entry : Contributor) (ty date : String) (pts : Int)
    (title link : Option String) : Contributor :=
  { entry with
    total_points := entry.total_points + pts
    activity_breakdown := bumpBreakdown entry.activity_breakdown ty pts
    daily_activity := bumpDailyList entry.daily_activity (splitHeadT date) pts
    raw_activities := entry.raw_activities ++
      [{ type := ty, occured_at := date, title := sanitizeTitle title, link := link, points := pts }] }

/-- The combination ensureUser-then-addActivity used at every recording site:
the contributor for the login is fetched or freshly created, mutated by
addActivity, and stored back at its position in the map. -/
def recordActivity (m : CMap) (user : GhUser) (ty date : String) (pts : Int)
    (title link : Option String) : CMap :=
  mapSet m user.login (addActivity ((mapGet m user.login).getD (newContributor user)) ty date pts title link)

/-- Embeds a bare ensureUser call (used by processIssueTriagingEvents before the
event switch): creates the contributor when absent, otherwise leaves the map
unchanged. -/
def ensureUserM (m : CMap) (user : GhUser) : CMap :=
  match mapGet m user.login with
  | some _ => m
  | none => mapSet m user.login (newContributor user)

/-- First-occurrence dedup with an accumulating seen set, the filter of
deduplicateAndRecalculate (lines 830-836) and of the people route union. -/
def dedupKeyGo {α κ : Type} [DecidableEq κ] (key : α → κ) : List κ → List α → List α
  | _, [] => []
  | seen, a :: rest =>
    if key a ∈ seen then dedupKeyGo key seen rest
    else a :: dedupKeyGo key (key a :: seen) rest

/-- The dedup identity key built at line 832: the template string
type, colon, occured_at, colon, link-nullish-coalesced-with-title, where JS
stringifies a missing value as the word null. -/
def actKey (a : RawActivity) : String :=
  a.type ++ ":" ++ a.occured_at ++ ":" ++ ((a.link.orElse (fun _ => a.title)).getD "null")

/-- The deduplication pass of deduplicateAndRecalculate on one raw log. -/
def dedupActs (l : List RawActivity) : List RawActivity := dedupKeyGo actKey [] l

/-- Insertion step of the embedded comparator sort. -/
def insertOrd {α : Type} (le : α → α → Bool) (x : α) : List α → List α
  | [] => [x]
  | y :: ys => if le x y then x :: y :: ys else y :: insertOrd le x ys

/-- Embeds an Array.prototype.sort call with a total comparator: the result is
ordered by le (le a b meaning a may come before b). Tie order is irrelevant to
every property proved here. -/
def sortOrd {α : Type} (le : α → α → Bool) : List α → List α
  | [] => []
  | x :: xs => insertOrd le x (sortOrd le xs)

/-- The total_points recomputation fold of deduplicateAndRecalculate (lines
839-847). -/
def totalOf (l : List RawActivity) : Int := l.foldl (fun s a => s + a.points) 0

/-- The activity_breakdown recomputation fold of deduplicateAndRecalculate
(lines 849-855). -/
def breakdownOf (l : List RawActivity) : List (String × Stats) :=
  l.foldl (fun bd a => bumpBreakdown bd a.type a.points) []

/-- The dailyMap fold of deduplicateAndRecalculate (lines 857-865), keyed by the
first ten characters of the timestamp. -/
def dailyAssocOf (l : List RawActivity) : List (String × Stats) :=
  l.foldl (fun dm a => bumpBreakdown dm (takeChars 10 a.occured_at) a.points) []

/-- The daily_activity rebuild of deduplicateAndRecalculate (lines 867-870):
the dailyMap converted to an array and sorted by date descending. -/
def dailyOf (l : List RawActivity) : List DailyActivity :=
  sortOrd (fun a b => strLe b.date a.date)
    ((dailyAssocOf l).map (fun p => ⟨p.1, p.2.count, p.2.points⟩))

/-- Embeds the per-contributor body of deduplicateAndRecalculate
(generateLeaderboard.ts lines 827-872): dedup the raw log, then rebuild
total_points, activity_breakdown and daily_activity from it. -/
def recalcUser (u : Contributor) : Contributor :=
  { u with
    raw_activities := dedupActs u.raw_activities
    total_points := totalOf (dedupActs u.raw_activities)
    activity_breakdown := breakdownOf (dedupActs u.raw_activities)
    daily_activity := dailyOf (dedupActs u.raw_activities) }

/-- Embeds deduplicateAndRecalculate over the whole contributor map: every
stored contributor is rewritten in place by recalcUser. -/
def dedupRecalc (m : CMap) : CMap := m.map (fun p => (p.1, recalcUser p.2))

/-- Embeds the per-entry merge of mergeExistingActivities (generateLeaderboard.ts
lines 801-824): a missing username is created from the stored entry with zeroed
derived fields and the stored raw_activities; an existing one has the stored
raw_activities appended to its log. -/
def mergeOne (m : CMap) (e : Contributor) : CMap :=
  match mapGet m e.username with
  | none =>
    mapSet m e.username
      { username := e.username
        name := e.name
        avatar_url := e.avatar_url
        role := e.role
        total_points := 0
        activity_breakdown := {}
        daily_activity := []
        raw_activities := e.raw_activities }
  | some u => mapSet m e.username { u with raw_activities := u.raw_activities ++ e.raw_activities }

/-- Embeds mergeExistingActivities (generateLeaderboard.ts lines 795-825) on the
entries of a prior year snapshot; a missing prior snapshot is the empty list. -/
def mergeExisting (m : CMap) (entries : List Contributor) : CMap :=
  entries.foldl mergeOne m

/-- GitHubSearchItem (generateLeaderboard.ts lines 198-204). -/
structure SearchItem where
  user : GhUser
  title : String
  html_url : String
  created_at : String
  closed_at : Option String
deriving DecidableEq

/-- The PRs-opened ingestion loop of generateYear (lines 901-910): bot actors
are skipped, every other item is recorded as PR opened worth 2 points. -/
def processPROpened (m : CMap) (items : List SearchItem) : CMap :=
  items.foldl (fun m it =>
    if isBotUser (some it.user) then m
    else recordActivity m it.user "PR opened" it.created_at 2 (some it.title) (some it.html_url)) m

/-- The PRs-merged ingestion loop of generateYear (lines 913-928): the date is
the non-null-asserted closed_at (embedded with an empty-string default), 5
points per item. -/
def processPRMerged (m : CMap) (items : List SearchItem) : CMap :=
  items.foldl (fun m it =>
    if isBotUser (some it.user) then m
    else recordActivity m it.user "PR merged" (it.closed_at.getD "") 5 (some it.title) (some it.html_url)) m

/-- The issues-opened ingestion loop of generateYear (lines 931-944): 1 point
per item. -/
def processIssuesOpened (m : CMap) (items : List SearchItem) : CMap :=
  items.foldl (fun m it =>
    if isBotUser (some it.user) then m
    else recordActivity m it.user "Issue opened" it.created_at 1 (some it.title) (some it.html_url)) m

/-- GitHubReview (generateLeaderboard.ts lines 426-430). -/
structure Review where
  user : GhUser
  state : String
  submitted_at : String
deriving DecidableEq

/-- A pull request together with its fetched reviews, the unit processed by the
batched loop of fetchAllReviews; the number and author come from GitHubPR. -/
structure PRInfo where
  number : Nat
  authorLogin : String
  reviews : List Review
deriving DecidableEq

/-- One repository with its pull requests as returned by fetchRepoPRs. -/
structure RepoPRs where
  repoName : String
  prs : List PRInfo
deriving DecidableEq

/-- A counted review identified by (reviewer login, repository, PR number). -/
abbrev ReviewTriple := String × String × Nat

/-- The dedup key string built at line 579 of fetchAllReviews: login, colon,
repository name, colon, PR number. -/
def reviewKey (t : ReviewTriple) : String := t.1 ++ ":" ++ t.2.1 ++ ":" ++ toString t.2.2

/-- The per-review body of fetchAllReviews (lines 562-590): skip missing or bot
or non-User reviewers, self-reviews, states other than APPROVED and
CHANGES_REQUESTED, out-of-window dates, and reviewers already seen on this PR;
otherwise record a 4-point Review submitted activity. The third state component
is a ghost trace collecting the (reviewer, repo, PR) triple of every recorded
review; it mirrors the addActivity call sites exactly and is used only to state
the per-PR dedup property. -/
def procReviews (since now repoName prAuthor : String) (prNumber : Nat) :
    CMap × List String × List ReviewTriple → List Review → CMap × List String × List ReviewTriple
  | st, [] => st
  | (m, seen, tr), r :: rs =>
    if r.user.login = "" then procReviews since now repoName prAuthor prNumber (m, seen, tr) rs
    else if endsWithStr r.user.login "[bot]" then procReviews since now repoName prAuthor prNumber (m, seen, tr) rs
    else if nonHumanType r.user.type then procReviews since now repoName prAuthor prNumber (m, seen, tr) rs
    else if r.user.login = prAuthor then procReviews since now repoName prAuthor prNumber (m, seen, tr) rs
    else if ¬ (r.state = "APPROVED" ∨ r.state = "CHANGES_REQUESTED") then
      procReviews since now repoName prAuthor prNumber (m, seen, tr) rs
    else if strLt r.submitted_at since ∨ strLt now r.submitted_at then
      procReviews since now repoName prAuthor prNumber (m, seen, tr) rs
    else if reviewKey (r.user.login, repoName, prNumber) ∈ seen then
      procReviews since now repoName prAuthor prNumber (m, seen, tr) rs
    else
      procReviews since now repoName prAuthor prNumber
        (recordActivity m r.user "Review submitted" r.submitted_at 4
            (some ("Review on PR #" ++ toString prNumber))
            (some ("https://github.com/CircuitVerse/" ++ repoName ++ "/pull/" ++ toString prNumber)),
          reviewKey (r.user.login, repoName, prNumber) :: seen,
          (r.user.login, repoName, prNumber) :: tr) rs

/-- The per-PR loop of fetchAllReviews; the size-5 Promise.all batching joins
every batch in input order before any shared-map mutation, so it is embedded as
this order-preserving sequential fold. -/
def procPRs (since now repoName : String) :
    CMap × List String × List ReviewTriple → List PRInfo → CMap × List String × List ReviewTriple
  | st, [] => st
  | st, pr :: prs =>
    procPRs since now repoName (procReviews since now repoName pr.authorLogin pr.number st pr.reviews) prs

/-- The per-repository loop of fetchAllReviews. -/
def procRepos (since now : String) :
    CMap × List String × List ReviewTriple → List RepoPRs → CMap × List String × List ReviewTriple
  | st, [] => st
  | st, rp :: rest => procRepos since now (procPRs since now rp.repoName st rp.prs) rest

/-- Embeds fetchAllReviews (generateLeaderboard.ts lines 530-597) over the
already-fetched repository data: the reviewSeen set starts empty for the run. -/
def fetchAllReviewsM (m : CMap) (since now : String) (repos : List RepoPRs) :
    CMap × List String × List ReviewTriple :=
  procRepos since now (m, [], []) repos

/-- GitHubIssueEvent (generateLeaderboard.ts lines 432-438), with label and
assignee flattened to their used fields. -/
structure IssueEvent where
  event : String
  actor : Option GhUser
  created_at : String
  labelName : Option String
  assigneeLogin : Option String
deriving DecidableEq

/-- A searched issue together with its fetched events, the unit processed by
processIssueTriagingEvents; repoName and issueNumber stand for the components
extracted from html_url at lines 651-659 (the URL parsing itself carries no
claim). -/
structure TriageIssue where
  html_url : String
  title : String
  authorLogin : String
  issueNumber : String
  repoName : String
  events : List IssueEvent
deriving DecidableEq

/-- The automated-label denylist of isAutomatedLabel (lines 746-754). -/
def automatedLabels : List String :=
  ["stale", "wontfix", "duplicate", "invalid", "dependencies", "security", "github_actions"]

/-- Embeds isAutomatedLabel (generateLeaderboard.ts lines 745-759):
case-insensitive substring containment against the denylist. -/
def isAutomatedLabel (labelName : String) : Bool :=
  automatedLabels.any (fun auto => containsStr (lowerStr labelName) (lowerStr auto))

/-- Embeds the per-event body of processIssueTriagingEvents (lines 681-737):
skip missing, bot or out-of-window actors; ensure the contributor exists; then
score labeled events with a meaningful label (2 points), assignments to someone
else (2 points) and closures by someone other than the issue author (1 point).
The single ensureUser call made before the switch is written inline in each
branch (ensureUserM is pure, so the two forms agree). -/
def processIssueEvent (since now : String) (iss : TriageIssue) (m : CMap) (e : IssueEvent) : CMap :=
  match e.actor with
  | none => m
  | some actor =>
    if actor.login = "" ∨ isBotUser (some actor) = true then m
    else if strLt e.created_at since ∨ strLt now e.created_at then m
    else
      if e.event = "labeled" then
        match e.labelName with
        | some nm =>
          if nm ≠ "" ∧ isAutomatedLabel nm = false then
            recordActivity (ensureUserM m actor) actor "Issue labeled" e.created_at 2
              (some ("Labeled issue #" ++ iss.issueNumber ++ ": " ++ nm)) (some iss.html_url)
          else ensureUserM m actor
        | none => ensureUserM m actor
      else if e.event = "assigned" then
        match e.assigneeLogin with
        | some al =>
          if actor.login ≠ al then
            recordActivity (ensureUserM m actor) actor "Issue assigned" e.created_at 2
              (some ("Assigned issue #" ++ iss.issueNumber ++ " to " ++ al)) (some iss.html_url)
          else ensureUserM m actor
        | none => ensureUserM m actor
      else if e.event = "closed" then
        if actor.login ≠ iss.authorLogin then
          recordActivity (ensureUserM m actor) actor "Issue closed" e.created_at 1
            (some ("Closed issue #" ++ iss.issueNumber ++ ": " ++ ((sanitizeTitle (some iss.title)).getD "null")))
            (some iss.html_url)
        else ensureUserM m actor
      else ensureUserM m actor

/-- Embeds processIssueTriagingEvents for one issue (the event loop). -/
def processTriageIssue (since now : String) (m : CMap) (iss : TriageIssue) : CMap :=
  iss.events.foldl (processIssueEvent since now iss) m

/-- The contributor map of generateYear after the three search-ingestion loops,
the review scan and the triage scan, in source order (lines 900-950); the
batched Promise.all fan-outs join in input order, so sequential folds are
faithful. The since and now parameters are the ISO fetch-window bounds. -/
def scannedMap (prOpened prMerged issuesOpened : List SearchItem)
    (reviewRepos : List RepoPRs) (triageIssues : List TriageIssue)
    (since now : String) : CMap :=
  triageIssues.foldl (processTriageIssue since now)
    (fetchAllReviewsM
      (processIssuesOpened (processPRMerged (processPROpened [] prOpened) prMerged) issuesOpened)
      since now reviewRepos).1

/-- The contributor map of generateYear after merging the prior snapshot
entries (the empty list in full mode) and running deduplicateAndRecalculate
(lines 952-960). -/
def yearMap (existing : List Contributor)
    (prOpened prMerged issuesOpened : List SearchItem)
    (reviewRepos : List RepoPRs) (triageIssues : List TriageIssue)
    (since now : String) : CMap :=
  dedupRecalc (mergeExisting
    (scannedMap prOpened prMerged issuesOpened reviewRepos triageIssues since now) existing)

/-- Embeds the pure aggregation core of generateYear (generateLeaderboard.ts
lines 878-994) over already-fetched platform data, finishing with the
positive-total filter and the descending sort of lines 962-964. -/
def runYearEntries (existing : List Contributor)
    (prOpened prMerged issuesOpened : List SearchItem)
    (reviewRepos : List RepoPRs) (triageIssues : List TriageIssue)
    (since now : String) : List Contributor :=
  sortOrd (fun a b => decide (b.total_points ≤ a.total_points))
    (((yearMap existing prOpened prMerged issuesOpened reviewRepos triageIssues since now).map
        (fun p => p.2)).filter (fun u => decide (0 < u.total_points)))

/-- The time bookkeeping of a generateYear run, in epoch milliseconds. -/
structure YearRunTimes where
  fetchSince : Nat
  fetchUntil : Nat
  updatedAt : Nat
  lastFetchedAt : Nat
deriving DecidableEq

/-- Embeds the clock handling of generateYear (lines 881-898 and 972-981):
clockStart is the value of new Date() captured at entry, which bounds the fetch
window above and anchors daysAgo(365) in full mode (calendar day arithmetic
approximated as fixed-length days, irrelevant to the cursor claim); clockWrite
is the value of Date.now() when the snapshot object is built after all
fetching; the persisted updatedAt and lastFetchedAt are both clockWrite. -/
def generateYearTimes (clockStart clockWrite : Nat) (priorCursor : Option Nat) : YearRunTimes :=
  { fetchSince :=
      match priorCursor with
      | some t => t
      | none => clockStart - 365 * 86400000
    fetchUntil := clockStart
    updatedAt := clockWrite
    lastFetchedAt := clockWrite }

/-- UserEntry as produced by derivePeriod (lines 1032-1041): the derived period
snapshot entry with its filtered activities list. -/
structure PeriodEntry where
  username : String
  name : Option String
  avatar_url : Option String
  role : String
  total_points : Int
  activity_breakdown : List (String × Stats)
  daily_activity : List DailyActivity
  activities : List RawActivity
deriving DecidableEq

/-- The daily record fold of derivePeriod (lines 1027-1029), keyed by the part
of the timestamp before T, values in insertion order (never sorted). -/
def deriveDailyOf (l : List RawActivity) : List DailyActivity :=
  l.foldl (fun dl a => bumpDailyList dl (splitHeadT a.occured_at) a.points) []

/-- Embeds the per-contributor body of derivePeriod (lines 1004-1042): filter
the raw log to the trailing window (cutoff is daysAgo(days) as an ISO string),
drop the contributor when nothing remains, otherwise rebuild the totals from
the filtered subset only. -/
def deriveEntry (cutoff : String) (entry : Contributor) : Option PeriodEntry :=
  let acts := entry.raw_activities.filter (fun a => strLe cutoff a.occured_at)
  if acts = [] then none
  else some
    { username := entry.username
      name := entry.name
      avatar_url := entry.avatar_url
      role := entry.role
      total_points := totalOf acts
      activity_breakdown := breakdownOf acts
      daily_activity := deriveDailyOf acts
      activities := acts }

/-- Embeds derivePeriod (generateLeaderboard.ts lines 1000-1064) on the year
entries: map, filter out the empty ones, sort descending by total_points. -/
def derivePeriodEntries (entries : List Contributor) (cutoff : String) : List PeriodEntry :=
  sortOrd (fun a b => decide (b.total_points ≤ a.total_points))
    (entries.filterMap (deriveEntry cutoff))

/-- RecentActivityItem (generateLeaderboard.ts lines 214-223) as pushed by
generateRecentActivities. -/
structure RecentItem where
  username : String
  name : Option String
  title : Option String
  link : Option String
  avatar_url : Option String
  points : Int
deriving DecidableEq

/-- The group push of generateRecentActivities (lines 1079-1087): fetch or
create the day bucket and append the item. -/
def pushRecent (gs : List (String × List RecentItem)) (day : String) (it : RecentItem) :
    List (String × List RecentItem) :=
  mapSet gs day (((mapGet gs day).getD []) ++ [it])

/-- Embeds generateRecentActivities (generateLeaderboard.ts lines 1070-1101):
group every raw activity on or after the cutoff day (daysAgo(14) as a date
string) into a day-keyed map of items. -/
def recentActivities (entries : List Contributor) (cutoff : String) :
    List (String × List RecentItem) :=
  entries.foldl (fun gs entry =>
    entry.raw_activities.foldl (fun gs a =>
      if strLt (splitHeadT a.occured_at) cutoff then gs
      else pushRecent gs (splitHeadT a.occured_at)
        ⟨entry.username, entry.name, a.title, a.link, entry.avatar_url, a.points⟩) gs) []

/-- The short activity shape of the people route (part_001 lines 14-20). -/
structure SAct where
  type : String
  title : String
  occured_at : String
  link : String
  points : Int
deriving DecidableEq

/-- ContributorEntry of the people route (part_001 lines 6-21). -/
structure CEntry where
  username : String
  name : Option String
  avatar_url : String
  role : String
  total_points : Int
  activity_breakdown : List (String × Stats)
  daily_activity : List DailyActivity
  activities : Option (List SAct)
deriving DecidableEq

/-- Embeds the bot filter of the people route (part_001 lines 49-58), applied to
the lowercased username. -/
def isBotNameRoute (username : String) : Bool :=
  let l := lowerStr username
  endsWithStr l "[bot]" || endsWithStr l "-bot" || endsWithStr l "_bot" ||
  l == "dependabot" || l == "renovate" || l == "github-actions" ||
  startsWithStr l "renovate[" || startsWithStr l "dependabot["

/-- The union identity of the people route (part_001 lines 78-80): type-link
when the link is truthy, else type-title-occured_at, dash separated. -/
def identOf (a : SAct) : String :=
  if a.link ≠ "" then a.type ++ "-" ++ a.link
  else a.type ++ "-" ++ a.title ++ "-" ++ a.occured_at

/-- The toISOString rendering of new Date(0), the placeholder timestamp. -/
def epochISO : String := "1970-01-01T00:00:00.000Z"

/-- The placeholder synthesis loop of the people route (part_001 lines 96-109):
for each declared breakdown cell, push enough generic entries (empty link,
epoch timestamp, the cell points value) to reach the declared count. -/
def synthPlaceholders (bd : List (String × Stats)) (combined : List SAct) : List SAct :=
  (bd.map (fun p =>
    List.replicate (p.2.count - (combined.filter (fun a => a.type = p.1)).length)
      (⟨p.1, p.1 ++ " contribution", epochISO, "", p.2.points⟩ : SAct))).flatten

/-- The declared total count at line 93: the sum of the breakdown counts. -/
def sumCounts (bd : List (String × Stats)) : Nat := (bd.map (fun p => p.2.count)).sum

/-- Embeds the per-entry merge body of the people route GET (part_001 lines
47-117): bots skipped; first sight stores the entry with a defaulted activities
list; a later sight unions the activity lists first-occurrence-first on the
composite identity, sorts them by time descending, synthesizes placeholders
when the union is short of the declared breakdown count, and stores the later
entry base fields with the capped union. -/
def mergeEntryRoute (m : List (String × CEntry)) (entry : CEntry) : List (String × CEntry) :=
  if isBotNameRoute entry.username then m
  else
    match mapGet m entry.username with
    | none => mapSet m entry.username { entry with activities := some (entry.activities.getD []) }
    | some existing =>
      let combined0 := dedupKeyGo identOf [] ((existing.activities.getD []) ++ (entry.activities.getD []))
      let combined1 := sortOrd (fun a b => strLe b.occured_at a.occured_at) combined0
      let combined2 :=
        if combined1.length < sumCounts entry.activity_breakdown then
          combined1 ++ synthPlaceholders entry.activity_breakdown combined1
        else combined1
      mapSet m entry.username { entry with activities := some (combined2.take 15) }

/-- Embeds the file loop of the people route GET: every period file merged in
turn into the shared contributor map. -/
def mergeFilesRoute (files : List (List CEntry)) : List (String × CEntry) :=
  files.foldl (fun m entries => entries.foldl mergeEntryRoute m) []

/-- Specification-side sum of the points of a raw activity list. -/
def sumPts (l : List RawActivity) : Int := (l.map (fun a => a.points)).sum

/-- Specification-side sum of the points over a breakdown record. -/
def sumBreak (bd : List (String × Stats)) : Int := (bd.map (fun p => p.2.points)).sum

/-- Specification-side sum of the points over a daily activity list. -/
def sumDaily (l : List DailyActivity) : Int := (l.map (fun d => d.points)).sum

/-- The composite identity key of the spec: type, occured_at, link if present
else title. -/
def tupleKey (a : RawActivity) : String × String × Option String :=
  (a.type, a.occured_at, a.link.orElse (fun _ => a.title))

/-! Basic lemmas about the embedded containers. -/

theorem foldl_add_points (l : List RawActivity) (init : Int) :
    l.foldl (fun s a => s + a.points) init = init + sumPts l := by
  induction l generalizing init with
  | nil => simp [sumPts]
  | cons a l ih => simp [sumPts, ih, List.map_cons, List.sum_cons] at *; omega

theorem totalOf_eq_sumPts (l : List RawActivity) : totalOf l = sumPts l := by
  simpa [totalOf] using foldl_add_points l 0

theorem sumBreak_bump (bd : List (String × Stats)) (ty : String) (pts : Int) :
    sumBreak (bumpBreakdown bd ty pts) = sumBreak bd + pts := by
  induction bd with
  | nil => simp [bumpBreakdown, sumBreak]
  | cons p bd ih =>
    obtain ⟨k, s⟩ := p
    by_cases h : k = ty
    · simp [bumpBreakdown, h, sumBreak]; omega
    · simp [bumpBreakdown, h, sumBreak] at *; omega

theorem sumBreak_foldBump (key : RawActivity → String) (l : List RawActivity)
    (bd : List (String × Stats)) :
    sumBreak (l.foldl (fun bd a => bumpBreakdown bd (key a) a.points) bd) = sumBreak bd + sumPts l := by
  induction l generalizing bd with
  | nil => simp [sumPts]
  | cons a l ih => simp [sumPts, ih, sumBreak_bump] at *; omega

theorem sumDaily_bumpDailyList (dl : List DailyActivity) (day : String) (pts : Int) :
    sumDaily (bumpDailyList dl day pts) = sumDaily dl + pts := by
  induction dl with
  | nil => simp [bumpDailyList, sumDaily]
  | cons d dl ih =>
    by_cases h : d.date = day
    · simp [bumpDailyList, h, sumDaily]; omega
    · simp [bumpDailyList, h, sumDaily] at *; omega

theorem sumDaily_foldBumpDaily (key : RawActivity → String) (l : List RawActivity)
    (dl : List DailyActivity) :
    sumDaily (l.foldl (fun dl a => bumpDailyList dl (key a) a.points) dl) = sumDaily dl + sumPts l := by
  induction l generalizing dl with
  | nil => simp [sumPts]
  | cons a l ih => simp [sumPts, ih, sumDaily_bumpDailyList] at *; omega

theorem sumDaily_map_assoc (bd : List (String × Stats)) :
    sumDaily (bd.map (fun p => (⟨p.1, p.2.count, p.2.points⟩ : DailyActivity))) = sumBreak bd := by
  induction bd with
  | nil => rfl
  | cons p bd ih => simp [sumDaily, sumBreak] at *; omega

theorem insertOrd_cons_pos {α : Type} {le : α → α → Bool} {x z : α} {zs : List α}
    (h : le x z = true) : insertOrd le x (z :: zs) = x :: z :: zs := by
  simp [insertOrd, h]

theorem insertOrd_cons_neg {α : Type} {le : α → α → Bool} {x z : α} {zs : List α}
    (h : ¬ le x z = true) : insertOrd le x (z :: zs) = z :: insertOrd le x zs := by
  simp [insertOrd, h]

theorem mem_insertOrd {α : Type} (le : α → α → Bool) (x y : α) (l : List α) :
    y ∈ insertOrd le x l ↔ y = x ∨ y ∈ l := by
  induction l with
  | nil => simp [insertOrd]
  | cons z zs ih =>
    by_cases h : le x z
    · rw [insertOrd_cons_pos h]
      simp
    · rw [insertOrd_cons_neg h]
      simp only [List.mem_cons, ih]
      tauto

theorem mem_sortOrd {α : Type} (le : α → α → Bool) (y : α) (l : List α) :
    y ∈ sortOrd le l ↔ y ∈ l := by
  induction l with
  | nil => simp [sortOrd]
  | cons z zs ih =>
    show y ∈ insertOrd le z (sortOrd le zs) ↔ _
    rw [mem_insertOrd]
    simp only [List.mem_cons, ih]

theorem sumDaily_insertOrd (le : DailyActivity → DailyActivity → Bool) (x : DailyActivity)
    (l : List DailyActivity) : sumDaily (insertOrd le x l) = x.points + sumDaily l := by
  induction l with
  | nil => simp [insertOrd, sumDaily]
  | cons z zs ih =>
    by_cases h : le x z
    · rw [insertOrd_cons_pos h]
      simp [sumDaily]
    · rw [insertOrd_cons_neg h]
      simp only [sumDaily, List.map_cons, List.sum_cons] at *
      omega

theorem sumDaily_sortOrd (le : DailyActivity → DailyActivity → Bool) (l : List DailyActivity) :
    sumDaily (sortOrd le l) = sumDaily l := by
  induction l with
  | nil => rfl
  | cons z zs ih =>
    show sumDaily (insertOrd le z (sortOrd le zs)) = _
    rw [sumDaily_insertOrd, ih]
    simp [sumDaily]

theorem pairwise_insertOrd_points {α : Type} (f : α → Int) (x : α) (l : List α)
    (h : l.Pairwise (fun a b => f b ≤ f a)) :
    (insertOrd (fun a b => decide (f b ≤ f a)) x l).Pairwise (fun a b => f b ≤ f a) := by
  induction l with
  | nil => simp [insertOrd]
  | cons z zs ih =>
    rcases List.pairwise_cons.mp h with ⟨hz, hzs⟩
    by_cases hle : f z ≤ f x
    · rw [insertOrd_cons_pos (by simpa using hle)]
      refine List.pairwise_cons.mpr ⟨?_, h⟩
      intro b hb
      rcases List.mem_cons.mp hb with rfl | hb
      · exact hle
      · exact le_trans (hz b hb) hle
    · rw [insertOrd_cons_neg (by simpa using hle)]
      refine List.pairwise_cons.mpr ⟨?_, ih hzs⟩
      intro b hb
      rcases (mem_insertOrd _ _ _ _).mp hb with rfl | hb
      · omega
      · exact hz b hb

theorem pairwise_sortOrd_points {α : Type} (f : α → Int) (l : List α) :
    (sortOrd (fun a b => decide (f b ≤ f a)) l).Pairwise (fun a b => f b ≤ f a) := by
  induction l with
  | nil => simp [sortOrd]
  | cons z zs ih => exact pairwise_insertOrd_points f z _ ih

theorem mapGet_mapSet_self {α : Type} (m : List (String × α)) (k : String) (v : α) :
    mapGet (mapSet m k v) k = some v := by
  induction m with
  | nil => simp [mapSet, mapGet]
  | cons p m ih =>
    obtain ⟨k', v'⟩ := p
    by_cases h : k' = k
    · simp [mapSet, mapGet, h]
    · simp [mapSet, mapGet, h, ih]

theorem mapGet_mapSet_ne {α : Type} (m : List (String × α)) (k k' : String) (v : α)
    (h : k' ≠ k) : mapGet (mapSet m k v) k' = mapGet m k' := by
  have hk : k ≠ k' := fun hh => h hh.symm
  induction m with
  | nil => simp [mapSet, mapGet, hk]
  | cons p m ih =>
    obtain ⟨k₀, v₀⟩ := p
    by_cases h0 : k₀ = k
    · have hne : k₀ ≠ k' := h0 ▸ hk
      simp only [mapSet, if_pos h0, mapGet, if_neg hne]
    · by_cases h1 : k₀ = k'
      · simp only [mapSet, if_neg h0, mapGet, if_pos h1]
      · simp only [mapSet, if_neg h0, mapGet, if_neg h1]
        exact ih

theorem mapGet_mem {α : Type} {m : List (String × α)} {k : String} {v : α}
    (h : mapGet m k = some v) : (k, v) ∈ m := by
  induction m with
  | nil => simp [mapGet] at h
  | cons p m ih =>
    obtain ⟨k', v'⟩ := p
    by_cases hk : k' = k
    · subst hk
      simp [mapGet] at h
      simp [h]
    · simp [mapGet, hk] at h
      exact List.mem_cons_of_mem _ (ih h)

theorem mem_mapSet {α : Type} {m : List (String × α)} {k : String} {v : α} {q : String × α}
    (h : q ∈ mapSet m k v) : q ∈ m ∨ q = (k, v) := by
  induction m with
  | nil => simp [mapSet] at h; simp [h]
  | cons p m ih =>
    obtain ⟨k', v'⟩ := p
    by_cases hk : k' = k
    · subst hk
      simp [mapSet] at h
      rcases h with h | h
      · right; simp [h]
      · left; exact List.mem_cons_of_mem _ h
    · simp [mapSet, hk] at h
      rcases h with h | h
      · left; simp [h]
      · rcases ih h with h' | h'
        · left; exact List.mem_cons_of_mem _ h'
        · right; exact h'

/-! Lemmas about the dedup pass. -/

theorem dedupKeyGo_cons_mem {α κ : Type} [DecidableEq κ] {key : α → κ} {seen : List κ}
    {a : α} {l : List α} (h : key a ∈ seen) :
    dedupKeyGo key seen (a :: l) = dedupKeyGo key seen l := by
  simp [dedupKeyGo, h]

theorem dedupKeyGo_cons_not {α κ : Type} [DecidableEq κ] {key : α → κ} {seen : List κ}
    {a : α} {l : List α} (h : key a ∉ seen) :
    dedupKeyGo key seen (a :: l) = a :: dedupKeyGo key (key a :: seen) l := by
  simp [dedupKeyGo, h]

theorem dedupKeyGo_idem {α κ : Type} [DecidableEq κ] (key : α → κ) (seen : List κ) (l : List α) :
    dedupKeyGo key seen (dedupKeyGo key seen l) = dedupKeyGo key seen l := by
  induction l generalizing seen with
  | nil => rfl
  | cons a l ih =>
    by_cases h : key a ∈ seen
    · rw [dedupKeyGo_cons_mem h, ih]
    · rw [dedupKeyGo_cons_not h, dedupKeyGo_cons_not h, ih]

theorem mem_dedupKeyGo_not_seen {α κ : Type} [DecidableEq κ] (key : α → κ) (seen : List κ)
    (l : List α) : ∀ a ∈ dedupKeyGo key seen l, key a ∉ seen := by
  induction l generalizing seen with
  | nil => simp [dedupKeyGo]
  | cons b l ih =>
    by_cases h : key b ∈ seen
    · rw [dedupKeyGo_cons_mem h]
      exact ih seen
    · intro a ha
      rw [dedupKeyGo_cons_not h] at ha
      rcases List.mem_cons.mp ha with rfl | ha
      · exact h
      · intro hseen
        exact ih (key b :: seen) a ha (List.mem_cons_of_mem _ hseen)

theorem pairwise_dedupKeyGo {α κ : Type} [DecidableEq κ] (key : α → κ) (seen : List κ)
    (l : List α) : (dedupKeyGo key seen l).Pairwise (fun a b => key a ≠ key b) := by
  induction l generalizing seen with
  | nil => simp [dedupKeyGo]
  | cons a l ih =>
    by_cases h : key a ∈ seen
    · rw [dedupKeyGo_cons_mem h]
      exact ih seen
    · rw [dedupKeyGo_cons_not h]
      refine List.pairwise_cons.mpr ⟨?_, ih (key a :: seen)⟩
      intro b hb hab
      exact mem_dedupKeyGo_not_seen key _ l b hb (by simp [hab])

theorem tupleKey_eq_of_actKey {a b : RawActivity} (h : tupleKey a = tupleKey b) :
    actKey a = actKey b := by
  simp [tupleKey, Prod.ext_iff] at h
  obtain ⟨h1, h2, h3⟩ := h
  simp [actKey, h1, h2, h3]

/-! Invariants of recalcUser. -/

theorem recalcUser_total (u : Contributor) :
    (recalcUser u).total_points = sumPts (recalcUser u).raw_activities := by
  show totalOf (dedupActs u.raw_activities) = sumPts (dedupActs u.raw_activities)
  exact totalOf_eq_sumPts _

theorem recalcUser_breakdown (u : Contributor) :
    (recalcUser u).total_points = sumBreak (recalcUser u).activity_breakdown := by
  show totalOf (dedupActs u.raw_activities) = sumBreak (breakdownOf (dedupActs u.raw_activities))
  have h := sumBreak_foldBump (fun a => a.type) (dedupActs u.raw_activities) []
  rw [show sumBreak ([] : List (String × Stats)) = 0 from rfl, zero_add] at h
  rw [totalOf_eq_sumPts]
  exact h.symm

theorem recalcUser_daily (u : Contributor) :
    (recalcUser u).total_points = sumDaily (recalcUser u).daily_activity := by
  show totalOf (dedupActs u.raw_activities) = sumDaily (dailyOf (dedupActs u.raw_activities))
  have h := sumBreak_foldBump (fun a => takeChars 10 a.occured_at) (dedupActs u.raw_activities) []
  rw [show sumBreak ([] : List (String × Stats)) = 0 from rfl, zero_add] at h
  rw [totalOf_eq_sumPts, dailyOf, sumDaily_sortOrd, sumDaily_map_assoc]
  exact h.symm

theorem recalcUser_nodup_keys (u : Contributor) :
    (recalcUser u).raw_activities.Pairwise (fun a b => tupleKey a ≠ tupleKey b) := by
  have h : (dedupActs u.raw_activities).Pairwise (fun a b => actKey a ≠ actKey b) :=
    pairwise_dedupKeyGo actKey [] u.raw_activities
  exact h.imp (fun hne heq => hne (tupleKey_eq_of_actKey heq))

/-- C1: after deduplicateAndRecalculate runs on a contributor map, every stored
contributor has total_points equal to the sum of points over raw_activities,
equal to the summed points of activity_breakdown, and equal to the summed
points of daily_activity, and no two raw activities share the composite
identity key (type, occured_at, link if present else title). -/
theorem c1_dedup_recompute_invariants (m : CMap) (k : String) (u : Contributor)
    (hmem : (k, u) ∈ dedupRecalc m) :
    u.total_points = sumPts u.raw_activities ∧
    u.total_points = sumBreak u.activity_breakdown ∧
    u.total_points = sumDaily u.daily_activity ∧
    u.raw_activities.Pairwise (fun a b => tupleKey a ≠ tupleKey b) := by
  simp only [dedupRecalc, List.mem_map] at hmem
  obtain ⟨p, _, hp⟩ := hmem
  have hu : u = recalcUser p.2 := congrArg Prod.snd hp.symm
  subst hu
  exact ⟨recalcUser_total p.2, recalcUser_breakdown p.2, recalcUser_daily p.2,
    recalcUser_nodup_keys p.2⟩

/-- Witness for C1 at a concrete contributor map holding a duplicated activity. -/
def c1Ex : Contributor :=
  ⟨"alice", some "Alice", none, "Contributor", 9, [], [],
    [⟨"PR opened", "2024-06-01T10:00:00Z", some "Add X", some "https://github.com/CircuitVerse/x/pull/1", 2⟩,
     ⟨"PR opened", "2024-06-01T10:00:00Z", some "Add X", some "https://github.com/CircuitVerse/x/pull/1", 2⟩,
     ⟨"PR merged", "2024-06-02T10:00:00Z", some "Add X", some "https://github.com/CircuitVerse/x/pull/1", 5⟩]⟩

/-- Witness: C1 applied at a concrete map with a duplicate raw activity. -/
theorem c1_witness :
    (("alice", recalcUser c1Ex) ∈ dedupRecalc [("alice", c1Ex)]) ∧
    ((recalcUser c1Ex).total_points = sumPts (recalcUser c1Ex).raw_activities ∧
     (recalcUser c1Ex).total_points = sumBreak (recalcUser c1Ex).activity_breakdown ∧
     (recalcUser c1Ex).total_points = sumDaily (recalcUser c1Ex).daily_activity ∧
     (recalcUser c1Ex).raw_activities.Pairwise (fun a b => tupleKey a ≠ tupleKey b)) :=
  ⟨by decide, c1_dedup_recompute_invariants [("alice", c1Ex)] "alice" (recalcUser c1Ex) (by decide)⟩

theorem recalcUser_idem (u : Contributor) : recalcUser (recalcUser u) = recalcUser u := by
  cases u
  simp [recalcUser, dedupActs, dedupKeyGo_idem]

/-- C2: deduplicateAndRecalculate is idempotent on contributor maps: a second
run on the output of a first run returns it unchanged, so every contributor
keeps the same raw_activities, total_points, activity_breakdown and
daily_activity. -/
theorem c2_dedup_recalculate_idempotent (m : CMap) :
    dedupRecalc (dedupRecalc m) = dedupRecalc m := by
  induction m with
  | nil => rfl
  | cons p m ih =>
    simp only [dedupRecalc, List.map_cons, List.map_map] at *
    exact List.cons_eq_cons.mpr ⟨by simp [recalcUser_idem], ih⟩

/-! Lemmas about mergeExistingActivities followed by deduplicateAndRecalculate. -/

theorem mapGet_mergeOne_ne (m : CMap) (e : Contributor) (k : String) (h : e.username ≠ k) :
    mapGet (mergeOne m e) k = mapGet m k := by
  unfold mergeOne
  cases hg : mapGet m e.username with
  | none => exact mapGet_mapSet_ne _ _ _ _ (fun hh => h hh.symm)
  | some u => exact mapGet_mapSet_ne _ _ _ _ (fun hh => h hh.symm)

theorem mapGet_mergeExisting_untouched (entries : List Contributor) (m : CMap) (k : String)
    (h : ∀ e ∈ entries, e.username ≠ k) :
    mapGet (mergeExisting m entries) k = mapGet m k := by
  induction entries generalizing m with
  | nil => rfl
  | cons e rest ih =>
    show mapGet (mergeExisting (mergeOne m e) rest) k = _
    rw [ih (mergeOne m e) (fun e' he' => h e' (List.mem_cons_of_mem _ he')),
      mapGet_mergeOne_ne m e k (h e (List.mem_cons_self _ _))]

theorem mapGet_mergeExisting_fresh (entries : List Contributor) :
    ∀ (m : CMap) (e : Contributor), e ∈ entries →
    (entries.map (fun x => x.username)).Nodup →
    mapGet m e.username = none →
    mapGet (mergeExisting m entries) e.username =
      some { username := e.username, name := e.name, avatar_url := e.avatar_url, role := e.role,
             total_points := 0, activity_breakdown := [], daily_activity := [],
             raw_activities := e.raw_activities } := by
  induction entries with
  | nil =>
    intro m e he _ _
    cases he
  | cons f rest ih =>
    intro m e he hnodup habs
    simp only [List.map_cons, List.nodup_cons] at hnodup
    obtain ⟨hnotin, hnodup'⟩ := hnodup
    rcases List.mem_cons.mp he with rfl | he'
    · have hrest : ∀ x ∈ rest, x.username ≠ e.username := by
        intro x hx heq
        exact hnotin (heq ▸ List.mem_map_of_mem _ hx)
      show mapGet (mergeExisting (mergeOne m e) rest) e.username = _
      rw [mapGet_mergeExisting_untouched rest _ _ hrest]
      unfold mergeOne
      rw [habs]
      exact mapGet_mapSet_self _ _ _
    · have hne : f.username ≠ e.username := by
        intro heq
        exact hnotin (heq ▸ List.mem_map_of_mem _ he')
      have habs' : mapGet (mergeOne m f) e.username = none := by
        rw [mapGet_mergeOne_ne _ _ _ hne]
        exact habs
      exact ih (mergeOne m f) e he' hnodup' habs'

theorem mapGet_dedupRecalc (m : CMap) (k : String) :
    mapGet (dedupRecalc m) k = (mapGet m k).map recalcUser := by
  induction m with
  | nil => rfl
  | cons p m ih =>
    obtain ⟨k', v⟩ := p
    by_cases h : k' = k
    · simp [dedupRecalc, mapGet, h]
    · simp only [dedupRecalc, List.map_cons, mapGet, if_neg h] at *
      exact ih

/-- C3: on a prior year snapshot whose entries carry distinct usernames, are
already deduplicated and satisfy the total-points invariant, an incremental run
that fetches nothing (mergeExistingActivities into an empty map, then
deduplicateAndRecalculate) reproduces every contributor total_points exactly. -/
theorem c3_incremental_noop_preserves_totals (entries : List Contributor)
    (hnodup : (entries.map (fun e => e.username)).Nodup)
    (hdedup : ∀ e ∈ entries, dedupActs e.raw_activities = e.raw_activities)
    (htotal : ∀ e ∈ entries, e.total_points = sumPts e.raw_activities) :
    ∀ e ∈ entries, ∃ u, mapGet (dedupRecalc (mergeExisting [] entries)) e.username = some u ∧
      u.total_points = e.total_points := by
  intro e he
  have hfresh := mapGet_mergeExisting_fresh entries [] e he hnodup rfl
  refine ⟨recalcUser
    { username := e.username, name := e.name, avatar_url := e.avatar_url, role := e.role,
      total_points := 0, activity_breakdown := [], daily_activity := [],
      raw_activities := e.raw_activities }, ?_, ?_⟩
  · rw [mapGet_dedupRecalc, hfresh]
    rfl
  · show totalOf (dedupActs e.raw_activities) = e.total_points
    rw [totalOf_eq_sumPts, hdedup e he, ← htotal e he]

/-- Witness contributor for C3: deduplicated log with consistent totals. -/
def c3Ex : Contributor :=
  ⟨"alice", some "Alice", none, "Contributor", 7, [("PR opened", ⟨1, 2⟩), ("PR merged", ⟨1, 5⟩)], [],
    [⟨"PR opened", "2024-06-01T10:00:00Z", some "Add X", some "https://github.com/CircuitVerse/x/pull/1", 2⟩,
     ⟨"PR merged", "2024-06-02T10:00:00Z", some "Add X", some "https://github.com/CircuitVerse/x/pull/1", 5⟩]⟩

/-- Witness: C3 applied to a concrete single-entry prior snapshot. -/
theorem c3_witness :
    ∃ u, mapGet (dedupRecalc (mergeExisting [] [c3Ex])) c3Ex.username = some u ∧
      u.total_points = c3Ex.total_points :=
  c3_incremental_noop_preserves_totals [c3Ex] (by decide) (by decide) (by decide) c3Ex
    (List.mem_cons_self _ _)

/-- C6 (code bug): the persisted lastFetchedAt cursor is Date.now() evaluated at
snapshot-write time, while the fetch window upper bound was the wall clock
captured at run start; at a run starting at clock 100 and writing at clock 200
the cursor is 200, not the fetch-window end 100, so the interval (100, 200) is
requested by neither this run nor the next. -/
theorem c6_cursor_is_write_time :
    (generateYearTimes 100 200 none).lastFetchedAt = 200 ∧
    (generateYearTimes 100 200 none).fetchUntil = 100 ∧
    (generateYearTimes 100 200 none).lastFetchedAt ≠ (generateYearTimes 100 200 none).fetchUntil := by
  decide

/-- Counterexample to C5: two period files both carrying the username alice,
with different base fields; the merged directory keeps the second file values
(total_points 99, role Maintainer), not the first file values (10,
Contributor), refuting first-file-wins. -/
theorem c5_counterexample :
    (mapGet (mergeFilesRoute
        [[⟨"alice", some "Alice", "", "Contributor", 10, [], [], some []⟩],
         [⟨"alice", some "Alicia", "", "Maintainer", 99, [], [], some []⟩]]) "alice").map
      (fun u => (u.total_points, u.role)) = some (99, "Maintainer") ∧
    (99 : Int) ≠ 10 ∧ "Maintainer" ≠ "Contributor" := by
  decide

/-- C5 as amended: when a later file contains an already-seen username, the
merge replaces every base field (name, avatar_url, role, total_points,
activity_breakdown, daily_activity) with the later entry values; earlier files
only contribute to the unioned activities list. -/
theorem c5_later_file_base_fields_win (m : List (String × CEntry)) (e old : CEntry)
    (hbot : isBotNameRoute e.username = false) (hex : mapGet m e.username = some old) :
    ∃ u, mapGet (mergeEntryRoute m e) e.username = some u ∧
      u.name = e.name ∧ u.avatar_url = e.avatar_url ∧ u.role = e.role ∧
      u.total_points = e.total_points ∧ u.activity_breakdown = e.activity_breakdown ∧
      u.daily_activity = e.daily_activity := by
  unfold mergeEntryRoute
  rw [if_neg (by simp [hbot])]
  rw [hex]
  exact ⟨_, mapGet_mapSet_self _ _ _, rfl, rfl, rfl, rfl, rfl, rfl⟩

/-- The later-file entry used by the C5 witness. -/
def c5NewEntry : CEntry := ⟨"alice", some "Alicia", "", "Maintainer", 99, [], [], some []⟩

/-- The first-file entry used by the C5 witness. -/
def c5OldEntry : CEntry := ⟨"alice", some "Alice", "", "Contributor", 10, [], [], some []⟩

/-- Witness: C5 amended applied at a concrete two-entry situation. -/
theorem c5_witness :
    ∃ u, mapGet (mergeEntryRoute [("alice", c5OldEntry)] c5NewEntry) c5NewEntry.username = some u ∧
      u.name = c5NewEntry.name ∧ u.avatar_url = c5NewEntry.avatar_url ∧ u.role = c5NewEntry.role ∧
      u.total_points = c5NewEntry.total_points ∧
      u.activity_breakdown = c5NewEntry.activity_breakdown ∧
      u.daily_activity = c5NewEntry.daily_activity :=
  c5_later_file_base_fields_win [("alice", c5OldEntry)] c5NewEntry c5OldEntry (by decide) (by decide)

theorem mergeEntryRoute_existing (m : List (String × CEntry)) (e old : CEntry)
    (hbot : isBotNameRoute e.username = false) (hex : mapGet m e.username = some old) :
    mergeEntryRoute m e = mapSet m e.username
      { e with activities := some (List.take 15 (
          if (sortOrd (fun a b => strLe b.occured_at a.occured_at)
                (dedupKeyGo identOf [] ((old.activities.getD []) ++ (e.activities.getD [])))).length <
              sumCounts e.activity_breakdown then
            sortOrd (fun a b => strLe b.occured_at a.occured_at)
                (dedupKeyGo identOf [] ((old.activities.getD []) ++ (e.activities.getD []))) ++
              synthPlaceholders e.activity_breakdown
                (sortOrd (fun a b => strLe b.occured_at a.occured_at)
                  (dedupKeyGo identOf [] ((old.activities.getD []) ++ (e.activities.getD []))))
          else
            sortOrd (fun a b => strLe b.occured_at a.occured_at)
              (dedupKeyGo identOf [] ((old.activities.getD []) ++ (e.activities.getD []))))) } := by
  unfold mergeEntryRoute
  rw [if_neg (by simp [hbot]), hex]

/-- C8: in the cross-snapshot merge, when the later entry declares an Issue
opened breakdown count of 3 while the union of retained activities is a single
real Issue opened activity, exactly two synthetic placeholders are produced:
generic title, empty link, epoch timestamp, making the visible count match the
declared total. -/
theorem c8_placeholder_synthesis (m : List (String × CEntry)) (e old : CEntry) (a : SAct) (p : Int)
    (hbot : isBotNameRoute e.username = false)
    (hex : mapGet m e.username = some old)
    (hold : old.activities.getD [] = [])
    (hacts : e.activities = some [a])
    (hty : a.type = "Issue opened")
    (hbd : e.activity_breakdown = [("Issue opened", ⟨3, p⟩)]) :
    mapGet (mergeEntryRoute m e) e.username =
      some { e with activities := some [a,
        ⟨"Issue opened", "Issue opened contribution", epochISO, "", p⟩,
        ⟨"Issue opened", "Issue opened contribution", epochISO, "", p⟩] } := by
  rw [mergeEntryRoute_existing m e old hbot hex, mapGet_mapSet_self]
  rw [hold, hacts, hbd]
  simp only [Option.getD_some, List.nil_append]
  have hdedup : dedupKeyGo identOf [] [a] = [a] := by
    rw [dedupKeyGo_cons_not (by simp)]
    rfl
  rw [hdedup]
  have hsort : sortOrd (fun a b => strLe b.occured_at a.occured_at) [a] = [a] := rfl
  rw [hsort]
  have hsynth : synthPlaceholders [("Issue opened", ⟨3, p⟩)] [a] =
      [⟨"Issue opened", "Issue opened contribution", epochISO, "", p⟩,
       ⟨"Issue opened", "Issue opened contribution", epochISO, "", p⟩] := by
    simp [synthPlaceholders, List.filter, hty, List.replicate]
  rw [if_pos (by simp [sumCounts]), hsynth]
  rfl

/-- The prior-file entry used by the C8 witness. -/
def c8OldEntry : CEntry := ⟨"alice", some "Alice", "", "Contributor", 3, [], [], some []⟩

/-- The real retained activity used by the C8 witness. -/
def c8Act : SAct :=
  ⟨"Issue opened", "Fix bug", "2024-06-01T00:00:00Z", "https://github.com/CircuitVerse/cv/issues/7", 1⟩

/-- The later-file entry used by the C8 witness. -/
def c8NewEntry : CEntry :=
  ⟨"alice", some "Alice", "", "Contributor", 3, [("Issue opened", ⟨3, 3⟩)], [], some [c8Act]⟩

/-- Witness: C8 at a concrete merge of two files. -/
theorem c8_witness :
    mapGet (mergeEntryRoute [("alice", c8OldEntry)] c8NewEntry) c8NewEntry.username =
      some { c8NewEntry with activities := some [c8Act,
        ⟨"Issue opened", "Issue opened contribution", epochISO, "", 3⟩,
        ⟨"Issue opened", "Issue opened contribution", epochISO, "", 3⟩] } :=
  c8_placeholder_synthesis [("alice", c8OldEntry)] c8NewEntry c8OldEntry c8Act 3
    (by decide) (by decide) (by decide) (by decide) (by decide) (by decide)

/-! Lemmas about the recording helpers, used by the triage-event claims. -/

theorem isBotUser_false_parts (u : GhUser) (h : isBotUser (some u) = false) :
    u.login ≠ "" ∧ nonHumanType u.type = false ∧ endsWithStr u.login "[bot]" = false := by
  by_cases h1 : u.login = ""
  · simp [isBotUser, h1] at h
  · by_cases h2 : nonHumanType u.type
    · simp [isBotUser, h1, h2] at h
    · refine ⟨h1, by simpa using h2, ?_⟩
      simpa [isBotUser, h1, h2] using h

theorem mapGet_recordActivity_self (m : CMap) (user : GhUser) (ty date : String) (pts : Int)
    (title link : Option String) :
    mapGet (recordActivity m user ty date pts title link) user.login =
      some (addActivity ((mapGet m user.login).getD (newContributor user)) ty date pts title link) := by
  unfold recordActivity
  exact mapGet_mapSet_self _ _ _

theorem mapGet_ensureUserM_self (m : CMap) (user : GhUser) :
    mapGet (ensureUserM m user) user.login =
      some ((mapGet m user.login).getD (newContributor user)) := by
  unfold ensureUserM
  cases h : mapGet m user.login with
  | some u => simp [h]
  | none => exact mapGet_mapSet_self _ _ _

/-- C7 as amended: a labeled issue event from a qualifying actor inside the
fetch window is excluded from scoring exactly when the lowercased label
CONTAINS one of the automated substrings stale, wontfix, duplicate, invalid,
dependencies, security, github_actions; otherwise it is scored as a 2-point
Issue labeled activity. (The claim named equality membership and a final
denylist element ci-label; the code uses substring containment and
github_actions.) -/
theorem c7_label_substring_denylist (m : CMap) (iss : TriageIssue) (e : IssueEvent)
    (since now : String) (actor : GhUser) (nm : String)
    (hactor : e.actor = some actor) (hbot : isBotUser (some actor) = false)
    (hev : e.event = "labeled") (hlab : e.labelName = some nm) (hnm : nm ≠ "")
    (hd1 : strLt e.created_at since = false) (hd2 : strLt now e.created_at = false) :
    (automatedLabels.any (fun auto => containsStr (lowerStr nm) (lowerStr auto)) = true →
      mapGet (processIssueEvent since now iss m e) actor.login =
        some ((mapGet m actor.login).getD (newContributor actor))) ∧
    (automatedLabels.any (fun auto => containsStr (lowerStr nm) (lowerStr auto)) = false →
      mapGet (processIssueEvent since now iss m e) actor.login =
        some (addActivity ((mapGet m actor.login).getD (newContributor actor)) "Issue labeled"
          e.created_at 2 (some ("Labeled issue #" ++ iss.issueNumber ++ ": " ++ nm))
          (some iss.html_url))) := by
  obtain ⟨hlogin, -, -⟩ := isBotUser_false_parts actor hbot
  constructor
  · intro hauto
    simp [processIssueEvent, hactor, hev, hlab, hbot, hlogin, hd1, hd2, isAutomatedLabel, hauto]
    exact mapGet_ensureUserM_self m actor
  · intro hauto
    simp [processIssueEvent, hactor, hev, hlab, hbot, hlogin, hd1, hd2, isAutomatedLabel, hauto, hnm]
    rw [mapGet_recordActivity_self, mapGet_ensureUserM_self]
    simp

/-- Issue used by the C7 witness. -/
def c7Iss : TriageIssue := ⟨"https://github.com/CircuitVerse/cv/issues/5", "Some issue", "bob", "5", "cv", []⟩

/-- Labeled event used by the C7 witness: the label bug is outside the denylist. -/
def c7Ev : IssueEvent :=
  ⟨"labeled", some ⟨"alice", none, none, some "User"⟩, "2024-06-01T00:00:00Z", some "bug", none⟩

/-- Witness: C7 amended applied at a concrete labeled event. -/
theorem c7_witness :
    (automatedLabels.any (fun auto => containsStr (lowerStr "bug") (lowerStr auto)) = true →
      mapGet (processIssueEvent "2024-01-01T00:00:00Z" "2025-01-01T00:00:00Z" c7Iss [] c7Ev)
          (GhUser.login ⟨"alice", none, none, some "User"⟩) =
        some ((mapGet [] (GhUser.login ⟨"alice", none, none, some "User"⟩)).getD
          (newContributor ⟨"alice", none, none, some "User"⟩))) ∧
    (automatedLabels.any (fun auto => containsStr (lowerStr "bug") (lowerStr auto)) = false →
      mapGet (processIssueEvent "2024-01-01T00:00:00Z" "2025-01-01T00:00:00Z" c7Iss [] c7Ev)
          (GhUser.login ⟨"alice", none, none, some "User"⟩) =
        some (addActivity ((mapGet [] (GhUser.login ⟨"alice", none, none, some "User"⟩)).getD
            (newContributor ⟨"alice", none, none, some "User"⟩)) "Issue labeled"
          c7Ev.created_at 2 (some ("Labeled issue #" ++ c7Iss.issueNumber ++ ": " ++ "bug"))
          (some c7Iss.html_url))) :=
  c7_label_substring_denylist [] c7Iss c7Ev "2024-01-01T00:00:00Z" "2025-01-01T00:00:00Z"
    ⟨"alice", none, none, some "User"⟩ "bug"
    (by decide) (by decide) (by decide) (by decide) (by decide) (by decide) (by decide)

/-- Counterexample to C7: the label ci-label sits in the claim denylist, yet the
code scores the event as a 2-point Issue labeled activity (the code list ends
in github_actions, not ci-label), so the event is not excluded. -/
theorem c7_counterexample :
    (mapGet (processIssueEvent "2024-01-01T00:00:00Z" "2025-01-01T00:00:00Z"
        ⟨"https://github.com/CircuitVerse/cv/issues/5", "Some issue", "bob", "5", "cv", []⟩ []
        ⟨"labeled", some ⟨"alice", none, none, some "User"⟩, "2024-06-01T00:00:00Z", some "ci-label", none⟩)
      "alice").map (fun u => (u.total_points, u.raw_activities.map (fun a => a.type))) =
      some (2, ["Issue labeled"]) ∧
    isAutomatedLabel "ci-label" = false ∧
    isAutomatedLabel "github_actions" = true := by
  decide

/-! Lemmas for the period projection. -/

theorem totalOf_eq_sumBreak_breakdownOf (l : List RawActivity) :
    totalOf l = sumBreak (breakdownOf l) := by
  have h := sumBreak_foldBump (fun a => a.type) l []
  rw [show sumBreak ([] : List (String × Stats)) = 0 from rfl, zero_add] at h
  rw [totalOf_eq_sumPts]
  exact h.symm

theorem totalOf_eq_sumDaily_deriveDailyOf (l : List RawActivity) :
    totalOf l = sumDaily (deriveDailyOf l) := by
  have h := sumDaily_foldBumpDaily (fun a => splitHeadT a.occured_at) l []
  rw [show sumDaily ([] : List DailyActivity) = 0 from rfl, zero_add] at h
  rw [totalOf_eq_sumPts]
  exact h.symm

theorem deriveEntry_eq_some {cutoff : String} {e : Contributor} {d : PeriodEntry}
    (h : deriveEntry cutoff e = some d) :
    d.username = e.username ∧
    d.activities = e.raw_activities.filter (fun a => strLe cutoff a.occured_at) ∧
    d.activities ≠ [] ∧
    d.total_points = totalOf d.activities ∧
    d.activity_breakdown = breakdownOf d.activities ∧
    d.daily_activity = deriveDailyOf d.activities := by
  by_cases hne : e.raw_activities.filter (fun a => strLe cutoff a.occured_at) = []
  · simp [deriveEntry, hne] at h
  · rw [show deriveEntry cutoff e = some
        { username := e.username, name := e.name, avatar_url := e.avatar_url, role := e.role,
          total_points := totalOf (e.raw_activities.filter (fun a => strLe cutoff a.occured_at)),
          activity_breakdown := breakdownOf (e.raw_activities.filter (fun a => strLe cutoff a.occured_at)),
          daily_activity := deriveDailyOf (e.raw_activities.filter (fun a => strLe cutoff a.occured_at)),
          activities := e.raw_activities.filter (fun a => strLe cutoff a.occured_at) } from by
      simp [deriveEntry, hne]] at h
    injection h with h
    subst h
    exact ⟨rfl, rfl, hne, rfl, rfl, rfl⟩

/-- C9: every entry of a derived period snapshot keeps only raw events on or
after the cutoff, is omitted when nothing survives the window, has its totals
recomputed from the filtered subset only, and the entries come out sorted
descending by total_points. -/
theorem c9_period_projection (entries : List Contributor) (cutoff : String) :
    (∀ d ∈ derivePeriodEntries entries cutoff,
       d.activities ≠ [] ∧
       (∀ a ∈ d.activities, strLe cutoff a.occured_at = true) ∧
       d.total_points = sumPts d.activities ∧
       d.total_points = sumBreak d.activity_breakdown ∧
       d.total_points = sumDaily d.daily_activity ∧
       ∃ e ∈ entries, d.username = e.username ∧
         d.activities = e.raw_activities.filter (fun a => strLe cutoff a.occured_at)) ∧
    (derivePeriodEntries entries cutoff).Pairwise (fun a b => b.total_points ≤ a.total_points) ∧
    ((entries.map (fun e => e.username)).Nodup →
      ∀ e ∈ entries, e.raw_activities.filter (fun a => strLe cutoff a.occured_at) = [] →
        e.username ∉ (derivePeriodEntries entries cutoff).map (fun d => d.username)) := by
  refine ⟨?_, ?_, ?_⟩
  · intro d hd
    rw [derivePeriodEntries, mem_sortOrd] at hd
    obtain ⟨e, he, hde⟩ := List.mem_filterMap.mp hd
    obtain ⟨hu, hacts, hne, htot, hbd, hdaily⟩ := deriveEntry_eq_some hde
    refine ⟨hne, ?_, ?_, ?_, ?_, e, he, hu, hacts⟩
    · intro a ha
      rw [hacts] at ha
      exact (List.mem_filter.mp ha).2
    · rw [htot, totalOf_eq_sumPts]
    · rw [htot, hbd]
      exact totalOf_eq_sumBreak_breakdownOf _
    · rw [htot, hdaily]
      exact totalOf_eq_sumDaily_deriveDailyOf _
  · exact pairwise_sortOrd_points (fun d => d.total_points) (entries.filterMap (deriveEntry cutoff))
  · intro hnodup e he hempty hmem
    rw [List.mem_map] at hmem
    obtain ⟨d, hd, hdu⟩ := hmem
    rw [derivePeriodEntries, mem_sortOrd] at hd
    obtain ⟨e', he', hde⟩ := List.mem_filterMap.mp hd
    obtain ⟨hu, hacts, hne, -, -, -⟩ := deriveEntry_eq_some hde
    have heq : e' = e := List.inj_on_of_nodup_map hnodup he' he (by rw [← hu, hdu])
    subst heq
    exact hne (by rw [hacts, hempty])

/-- A contributor inside the window, used by the C9 witness. -/
def c9In : Contributor :=
  ⟨"alice", some "Alice", none, "Contributor", 2, [], [],
    [⟨"PR opened", "2024-06-10T10:00:00Z", some "Add X", some "https://github.com/CircuitVerse/x/pull/1", 2⟩]⟩

/-- A contributor with no event inside the window, used by the C9 witness. -/
def c9Out : Contributor :=
  ⟨"bob", some "Bob", none, "Contributor", 5, [], [],
    [⟨"PR merged", "2024-01-01T10:00:00Z", some "Old", some "https://github.com/CircuitVerse/x/pull/2", 5⟩]⟩

/-- Witness: C9 applied at a concrete two-contributor year snapshot and cutoff. -/
theorem c9_witness :
    (∀ d ∈ derivePeriodEntries [c9In, c9Out] "2024-06-01T00:00:00Z",
       d.activities ≠ [] ∧
       (∀ a ∈ d.activities, strLe "2024-06-01T00:00:00Z" a.occured_at = true) ∧
       d.total_points = sumPts d.activities ∧
       d.total_points = sumBreak d.activity_breakdown ∧
       d.total_points = sumDaily d.daily_activity ∧
       ∃ e ∈ [c9In, c9Out], d.username = e.username ∧
         d.activities = e.raw_activities.filter (fun a => strLe "2024-06-01T00:00:00Z" a.occured_at)) ∧
    (derivePeriodEntries [c9In, c9Out] "2024-06-01T00:00:00Z").Pairwise
      (fun a b => b.total_points ≤ a.total_points) ∧
    ((([c9In, c9Out]).map (fun e => e.username)).Nodup →
      ∀ e ∈ [c9In, c9Out],
        e.raw_activities.filter (fun a => strLe "2024-06-01T00:00:00Z" a.occured_at) = [] →
        e.username ∉ (derivePeriodEntries [c9In, c9Out] "2024-06-01T00:00:00Z").map
          (fun d => d.username)) :=
  c9_period_projection [c9In, c9Out] "2024-06-01T00:00:00Z"

/-! Lemmas for the per-PR review dedup. -/

theorem procReviews_inv (since now repoName prAuthor : String) (prNumber : Nat)
    (rs : List Review) :
    ∀ (m : CMap) (seen : List String) (tr : List ReviewTriple),
    (tr.map reviewKey).Nodup → (∀ t ∈ tr, reviewKey t ∈ seen) →
    ((procReviews since now repoName prAuthor prNumber (m, seen, tr) rs).2.2.map reviewKey).Nodup ∧
    ∀ t ∈ (procReviews since now repoName prAuthor prNumber (m, seen, tr) rs).2.2,
      reviewKey t ∈ (procReviews since now repoName prAuthor prNumber (m, seen, tr) rs).2.1 := by
  induction rs with
  | nil =>
    intro m seen tr h1 h2
    exact ⟨h1, h2⟩
  | cons r rs ih =>
    intro m seen tr h1 h2
    simp only [procReviews]
    split_ifs with g1 g2 g3 g4 g5 g6 g7
    all_goals try exact ih m seen tr h1 h2
    refine ih _ _ _ ?_ ?_
    · simp only [List.map_cons]
      refine List.nodup_cons.mpr ⟨?_, h1⟩
      intro hmem
      rcases List.mem_map.mp hmem with ⟨t, ht, hkey⟩
      exact g7 (hkey ▸ h2 t ht)
    · intro t ht
      rcases List.mem_cons.mp ht with rfl | ht
      · exact List.mem_cons_self _ _
      · exact List.mem_cons_of_mem _ (h2 t ht)

theorem procPRs_inv (since now repoName : String) (prs : List PRInfo) :
    ∀ (m : CMap) (seen : List String) (tr : List ReviewTriple),
    (tr.map reviewKey).Nodup → (∀ t ∈ tr, reviewKey t ∈ seen) →
    ((procPRs since now repoName (m, seen, tr) prs).2.2.map reviewKey).Nodup ∧
    ∀ t ∈ (procPRs since now repoName (m, seen, tr) prs).2.2,
      reviewKey t ∈ (procPRs since now repoName (m, seen, tr) prs).2.1 := by
  induction prs with
  | nil =>
    intro m seen tr h1 h2
    exact ⟨h1, h2⟩
  | cons pr prs ih =>
    intro m seen tr h1 h2
    have h := procReviews_inv since now repoName pr.authorLogin pr.number pr.reviews m seen tr h1 h2
    exact ih _ _ _ h.1 h.2

theorem procRepos_inv (since now : String) (repos : List RepoPRs) :
    ∀ (m : CMap) (seen : List String) (tr : List ReviewTriple),
    (tr.map reviewKey).Nodup → (∀ t ∈ tr, reviewKey t ∈ seen) →
    ((procRepos since now (m, seen, tr) repos).2.2.map reviewKey).Nodup ∧
    ∀ t ∈ (procRepos since now (m, seen, tr) repos).2.2,
      reviewKey t ∈ (procRepos since now (m, seen, tr) repos).2.1 := by
  induction repos with
  | nil =>
    intro m seen tr h1 h2
    exact ⟨h1, h2⟩
  | cons rp repos ih =>
    intro m seen tr h1 h2
    have h := procPRs_inv since now rp.repoName rp.prs m seen tr h1 h2
    exact ih _ _ _ h.1 h.2

/-- C10: within one run of fetchAllReviews, at most one Review submitted
activity is recorded per (reviewer, repository, PR number): the ghost trace of
recorded reviews carries no duplicate triple, because a triple is recorded only
when its dedup key string is not yet in reviewSeen and every recorded triple
places its key there. -/
theorem c10_review_dedup_per_pr (m : CMap) (since now : String) (repos : List RepoPRs) :
    (fetchAllReviewsM m since now repos).2.2.Nodup := by
  have h := procRepos_inv since now repos m [] [] (by simp) (by simp)
  exact List.Nodup.of_map reviewKey h.1

/-! Bot-exclusion invariant: every stored contributor sits under its own login
as key and that login does not end in the bot bracket suffix. -/

/-- Invariant carried through the generateYear pipeline for the bot-exclusion
claim. -/
def CleanMap (m : CMap) : Prop :=
  ∀ p ∈ m, p.2.username = p.1 ∧ endsWithStr p.1 "[bot]" = false

theorem cleanMap_mapSet {m : CMap} {k : String} {v : Contributor} (h : CleanMap m)
    (hv : v.username = k) (hk : endsWithStr k "[bot]" = false) : CleanMap (mapSet m k v) := by
  intro p hp
  rcases mem_mapSet hp with hp' | rfl
  · exact h p hp'
  · exact ⟨hv, hk⟩

theorem cleanMap_recordActivity (m : CMap) (user : GhUser) (ty date : String) (pts : Int)
    (title link : Option String) (h : CleanMap m)
    (hk : endsWithStr user.login "[bot]" = false) :
    CleanMap (recordActivity m user ty date pts title link) := by
  unfold recordActivity
  refine cleanMap_mapSet h ?_ hk
  show ((mapGet m user.login).getD (newContributor user)).username = user.login
  cases hg : mapGet m user.login with
  | none => rfl
  | some u => exact (h _ (mapGet_mem hg)).1

theorem cleanMap_ensureUserM (m : CMap) (user : GhUser) (h : CleanMap m)
    (hk : endsWithStr user.login "[bot]" = false) : CleanMap (ensureUserM m user) := by
  unfold ensureUserM
  cases hg : mapGet m user.login with
  | some u => exact h
  | none => exact cleanMap_mapSet h rfl hk

theorem isBotUser_not_true {user : GhUser} (hb : ¬ isBotUser (some user) = true) :
    endsWithStr user.login "[bot]" = false :=
  (isBotUser_false_parts user (by simpa using hb)).2.2

theorem cleanMap_processPROpened (items : List SearchItem) :
    ∀ m, CleanMap m → CleanMap (processPROpened m items) := by
  induction items with
  | nil => exact fun m h => h
  | cons it items ih =>
    intro m h
    show CleanMap (processPROpened
      (if isBotUser (some it.user) then m
       else recordActivity m it.user "PR opened" it.created_at 2 (some it.title) (some it.html_url)) items)
    by_cases hb : isBotUser (some it.user)
    · rw [if_pos hb]
      exact ih m h
    · rw [if_neg hb]
      exact ih _ (cleanMap_recordActivity _ _ _ _ _ _ _ h (isBotUser_not_true hb))

theorem cleanMap_processPRMerged (items : List SearchItem) :
    ∀ m, CleanMap m → CleanMap (processPRMerged m items) := by
  induction items with
  | nil => exact fun m h => h
  | cons it items ih =>
    intro m h
    show CleanMap (processPRMerged
      (if isBotUser (some it.user) then m
       else recordActivity m it.user "PR merged" (it.closed_at.getD "") 5 (some it.title) (some it.html_url)) items)
    by_cases hb : isBotUser (some it.user)
    · rw [if_pos hb]
      exact ih m h
    · rw [if_neg hb]
      exact ih _ (cleanMap_recordActivity _ _ _ _ _ _ _ h (isBotUser_not_true hb))

theorem cleanMap_processIssuesOpened (items : List SearchItem) :
    ∀ m, CleanMap m → CleanMap (processIssuesOpened m items) := by
  induction items with
  | nil => exact fun m h => h
  | cons it items ih =>
    intro m h
    show CleanMap (processIssuesOpened
      (if isBotUser (some it.user) then m
       else recordActivity m it.user "Issue opened" it.created_at 1 (some it.title) (some it.html_url)) items)
    by_cases hb : isBotUser (some it.user)
    · rw [if_pos hb]
      exact ih m h
    · rw [if_neg hb]
      exact ih _ (cleanMap_recordActivity _ _ _ _ _ _ _ h (isBotUser_not_true hb))

theorem cleanMap_procReviews (since now repoName prAuthor : String) (prNumber : Nat)
    (rs : List Review) :
    ∀ (m : CMap) (seen : List String) (tr : List ReviewTriple), CleanMap m →
    CleanMap (procReviews since now repoName prAuthor prNumber (m, seen, tr) rs).1 := by
  induction rs with
  | nil => exact fun m seen tr h => h
  | cons r rs ih =>
    intro m seen tr h
    simp only [procReviews]
    split_ifs with g1 g2 g3 g4 g5 g6 g7
    all_goals try exact ih m seen tr h
    refine ih _ _ _ (cleanMap_recordActivity _ _ _ _ _ _ _ h ?_)
    simpa using g2

theorem cleanMap_procPRs (since now repoName : String) (prs : List PRInfo) :
    ∀ (m : CMap) (seen : List String) (tr : List ReviewTriple), CleanMap m →
    CleanMap (procPRs since now repoName (m, seen, tr) prs).1 := by
  induction prs with
  | nil => exact fun m seen tr h => h
  | cons pr prs ih =>
    intro m seen tr h
    exact ih _ _ _ (cleanMap_procReviews since now repoName pr.authorLogin pr.number pr.reviews m seen tr h)

theorem cleanMap_procRepos (since now : String) (repos : List RepoPRs) :
    ∀ (m : CMap) (seen : List String) (tr : List ReviewTriple), CleanMap m →
    CleanMap (procRepos since now (m, seen, tr) repos).1 := by
  induction repos with
  | nil => exact fun m seen tr h => h
  | cons rp repos ih =>
    intro m seen tr h
    exact ih _ _ _ (cleanMap_procPRs since now rp.repoName rp.prs m seen tr h)

theorem cleanMap_processIssueEvent (since now : String) (iss : TriageIssue) (e : IssueEvent)
    (m : CMap) (h : CleanMap m) : CleanMap (processIssueEvent since now iss m e) := by
  cases hact : e.actor with
  | none =>
    simp only [processIssueEvent, hact]
    exact h
  | some actor =>
    simp only [processIssueEvent, hact]
    by_cases g1 : actor.login = "" ∨ isBotUser (some actor) = true
    · rw [if_pos g1]
      exact h
    · rw [if_neg g1]
      have hbot : endsWithStr actor.login "[bot]" = false :=
        isBotUser_not_true (fun hb => g1 (Or.inr hb))
      have h1 : CleanMap (ensureUserM m actor) := cleanMap_ensureUserM m actor h hbot
      by_cases g2 : strLt e.created_at since = true ∨ strLt now e.created_at = true
      · rw [if_pos g2]
        exact h
      · rw [if_neg g2]
        by_cases g3 : e.event = "labeled"
        · rw [if_pos g3]
          split
          · split_ifs
            · exact cleanMap_recordActivity _ _ _ _ _ _ _ h1 hbot
            · exact h1
          · exact h1
        · rw [if_neg g3]
          by_cases g5 : e.event = "assigned"
          · rw [if_pos g5]
            split
            · split_ifs
              · exact cleanMap_recordActivity _ _ _ _ _ _ _ h1 hbot
              · exact h1
            · exact h1
          · rw [if_neg g5]
            by_cases g7 : e.event = "closed"
            · rw [if_pos g7]
              split_ifs
              · exact cleanMap_recordActivity _ _ _ _ _ _ _ h1 hbot
              · exact h1
            · rw [if_neg g7]
              exact h1

theorem cleanMap_processTriageIssue (since now : String) (iss : TriageIssue) :
    ∀ m, CleanMap m → CleanMap (processTriageIssue since now m iss) := by
  show ∀ m, CleanMap m → CleanMap (iss.events.foldl (processIssueEvent since now iss) m)
  induction iss.events with
  | nil => exact fun m h => h
  | cons e es ih =>
    intro m h
    exact ih _ (cleanMap_processIssueEvent since now iss e m h)

theorem cleanMap_foldTriage (since now : String) (issues : List TriageIssue) :
    ∀ m, CleanMap m → CleanMap (issues.foldl (processTriageIssue since now) m) := by
  induction issues with
  | nil => exact fun m h => h
  | cons iss issues ih =>
    intro m h
    exact ih _ (cleanMap_processTriageIssue since now iss m h)

theorem cleanMap_mergeOne (m : CMap) (e : Contributor) (h : CleanMap m)
    (he : endsWithStr e.username "[bot]" = false) : CleanMap (mergeOne m e) := by
  unfold mergeOne
  cases hg : mapGet m e.username with
  | none => exact cleanMap_mapSet h rfl he
  | some u => exact cleanMap_mapSet h (h _ (mapGet_mem hg)).1 he

theorem cleanMap_mergeExisting (entries : List Contributor) :
    ∀ m, CleanMap m → (∀ e ∈ entries, endsWithStr e.username "[bot]" = false) →
    CleanMap (mergeExisting m entries) := by
  induction entries with
  | nil => exact fun m h _ => h
  | cons e rest ih =>
    intro m h hall
    show CleanMap (mergeExisting (mergeOne m e) rest)
    exact ih _ (cleanMap_mergeOne m e h (hall e (List.mem_cons_self _ _)))
      (fun e' he' => hall e' (List.mem_cons_of_mem _ he'))

theorem cleanMap_dedupRecalc (m : CMap) (h : CleanMap m) : CleanMap (dedupRecalc m) := by
  intro p hp
  rcases List.mem_map.mp hp with ⟨q, hq, rfl⟩
  exact ⟨(h q hq).1, (h q hq).2⟩

theorem cleanMap_scannedMap (prOpened prMerged issuesOpened : List SearchItem)
    (reviewRepos : List RepoPRs) (triageIssues : List TriageIssue) (since now : String) :
    CleanMap (scannedMap prOpened prMerged issuesOpened reviewRepos triageIssues since now) := by
  unfold scannedMap fetchAllReviewsM
  refine cleanMap_foldTriage since now triageIssues _ ?_
  refine cleanMap_procRepos since now reviewRepos _ [] [] ?_
  refine cleanMap_processIssuesOpened issuesOpened _ ?_
  refine cleanMap_processPRMerged prMerged _ ?_
  refine cleanMap_processPROpened prOpened _ ?_
  intro p hp
  cases hp

theorem cleanMap_yearMap (existing : List Contributor)
    (prOpened prMerged issuesOpened : List SearchItem)
    (reviewRepos : List RepoPRs) (triageIssues : List TriageIssue) (since now : String)
    (hexist : ∀ e ∈ existing, endsWithStr e.username "[bot]" = false) :
    CleanMap (yearMap existing prOpened prMerged issuesOpened reviewRepos triageIssues since now) := by
  unfold yearMap
  exact cleanMap_dedupRecalc _ (cleanMap_mergeExisting existing _
    (cleanMap_scannedMap prOpened prMerged issuesOpened reviewRepos triageIssues since now) hexist)

theorem runYear_username_clean (existing : List Contributor)
    (prOpened prMerged issuesOpened : List SearchItem)
    (reviewRepos : List RepoPRs) (triageIssues : List TriageIssue) (since now : String)
    (hexist : ∀ e ∈ existing, endsWithStr e.username "[bot]" = false) :
    ∀ c ∈ runYearEntries existing prOpened prMerged issuesOpened reviewRepos triageIssues since now,
      endsWithStr c.username "[bot]" = false := by
  intro c hc
  rw [runYearEntries, mem_sortOrd] at hc
  have hc2 := (List.mem_filter.mp hc).1
  rcases List.mem_map.mp hc2 with ⟨p, hp, rfl⟩
  have h := cleanMap_yearMap existing prOpened prMerged issuesOpened reviewRepos triageIssues
    since now hexist p hp
  rw [h.1]
  exact h.2

/-! Transport of usernames into the derived snapshots and the recent feed. -/

theorem mapGet_getD_mem_of_mem {gs : List (String × List RecentItem)} {day : String}
    {i : RecentItem} (hi : i ∈ (mapGet gs day).getD []) : ∃ g ∈ gs, i ∈ g.2 := by
  cases h : mapGet gs day with
  | none => rw [h] at hi; cases hi
  | some l =>
    rw [h] at hi
    exact ⟨(day, l), mapGet_mem h, hi⟩

theorem good_pushRecent {P : String → Prop} {gs : List (String × List RecentItem)}
    {day : String} {it : RecentItem}
    (h : ∀ g ∈ gs, ∀ i ∈ g.2, P i.username) (hit : P it.username) :
    ∀ g ∈ pushRecent gs day it, ∀ i ∈ g.2, P i.username := by
  intro g hg i hi
  rcases mem_mapSet hg with hg' | rfl
  · exact h g hg' i hi
  · rcases List.mem_append.mp hi with hi' | hi'
    · rcases mapGet_getD_mem_of_mem hi' with ⟨g', hg', hi''⟩
      exact h g' hg' i hi''
    · rw [List.mem_singleton.mp hi']
      exact hit

theorem good_recentInner {P : String → Prop} (entry : Contributor) (cutoff : String)
    (acts : List RawActivity) :
    ∀ gs, (∀ g ∈ gs, ∀ i ∈ g.2, P i.username) → P entry.username →
    ∀ g ∈ acts.foldl (fun gs a =>
        if strLt (splitHeadT a.occured_at) cutoff then gs
        else pushRecent gs (splitHeadT a.occured_at)
          ⟨entry.username, entry.name, a.title, a.link, entry.avatar_url, a.points⟩) gs,
      ∀ i ∈ g.2, P i.username := by
  induction acts with
  | nil => exact fun gs h _ => h
  | cons a acts ih =>
    intro gs h hP
    simp only [List.foldl_cons]
    by_cases hcut : strLt (splitHeadT a.occured_at) cutoff
    · rw [if_pos hcut]
      exact ih gs h hP
    · rw [if_neg hcut]
      exact ih _ (good_pushRecent h hP) hP

theorem good_recent_aux {P : String → Prop} (cutoff : String) (entries : List Contributor) :
    ∀ gs, (∀ e ∈ entries, P e.username) → (∀ g ∈ gs, ∀ i ∈ g.2, P i.username) →
    ∀ g ∈ entries.foldl (fun gs entry =>
        entry.raw_activities.foldl (fun gs a =>
          if strLt (splitHeadT a.occured_at) cutoff then gs
          else pushRecent gs (splitHeadT a.occured_at)
            ⟨entry.username, entry.name, a.title, a.link, entry.avatar_url, a.points⟩) gs) gs,
      ∀ i ∈ g.2, P i.username := by
  induction entries with
  | nil => exact fun gs _ h => h
  | cons entry rest ih =>
    intro gs hP h
    simp only [List.foldl_cons]
    exact ih _ (fun e he => hP e (List.mem_cons_of_mem _ he))
      (good_recentInner entry cutoff entry.raw_activities gs h (hP entry (List.mem_cons_self _ _)))

theorem good_recent {P : String → Prop} (entries : List Contributor) (cutoff : String)
    (hP : ∀ e ∈ entries, P e.username) :
    ∀ g ∈ recentActivities entries cutoff, ∀ i ∈ g.2, P i.username :=
  good_recent_aux cutoff entries [] hP (fun g hg => absurd hg (List.not_mem_nil g))

theorem derived_username_from (entries : List Contributor) (cutoff : String) :
    ∀ d ∈ derivePeriodEntries entries cutoff, ∃ e ∈ entries, d.username = e.username := by
  intro d hd
  rw [derivePeriodEntries, mem_sortOrd] at hd
  obtain ⟨e, he, hde⟩ := List.mem_filterMap.mp hd
  exact ⟨e, he, (deriveEntry_eq_some hde).1⟩

/-- C4 as amended: an account whose handle ends in the bot bracket suffix never
appears in the year entries, in any derived period snapshot, or in the recent
activity feed, provided the merged prior snapshot is itself free of such
handles (trivially so in full mode). The dash-bot, underscore-bot and denylist
naming rules of the claim exist only in the serving-time people route, not in
the generator. -/
theorem c4_bot_suffix_excluded (existing : List Contributor)
    (prOpened prMerged issuesOpened : List SearchItem)
    (reviewRepos : List RepoPRs) (triageIssues : List TriageIssue)
    (since now cutoffPeriod cutoffRecent : String) (u : String)
    (hexist : ∀ e ∈ existing, endsWithStr e.username "[bot]" = false)
    (hu : endsWithStr u "[bot]" = true) :
    u ∉ (runYearEntries existing prOpened prMerged issuesOpened reviewRepos triageIssues
          since now).map (fun c => c.username) ∧
    u ∉ (derivePeriodEntries (runYearEntries existing prOpened prMerged issuesOpened reviewRepos
          triageIssues since now) cutoffPeriod).map (fun d => d.username) ∧
    ∀ g ∈ recentActivities (runYearEntries existing prOpened prMerged issuesOpened reviewRepos
          triageIssues since now) cutoffRecent, ∀ i ∈ g.2, i.username ≠ u := by
  have hclean := runYear_username_clean existing prOpened prMerged issuesOpened reviewRepos
    triageIssues since now hexist
  refine ⟨?_, ?_, ?_⟩
  · intro hmem
    rcases List.mem_map.mp hmem with ⟨c, hc, hcu⟩
    have hfc := hclean c hc
    rw [hcu, hu] at hfc
    exact Bool.noConfusion hfc
  · intro hmem
    rcases List.mem_map.mp hmem with ⟨d, hd, hdu⟩
    rcases derived_username_from _ cutoffPeriod d hd with ⟨c, hc, hdc⟩
    have hfc := hclean c hc
    rw [← hdc, hdu, hu] at hfc
    exact Bool.noConfusion hfc
  · intro g hgm i hi hiu
    have hfc := good_recent (P := fun s => endsWithStr s "[bot]" = false) _ cutoffRecent hclean g hgm i hi
    rw [hiu, hu] at hfc
    exact Bool.noConfusion hfc

/-- Counterexample to C4: the handle foo-bot matches the claim bot-naming rules
(dash-bot suffix) and carries the human account type, yet a single PR-opened
event by it produces an entry of the generated year snapshot, because isBotUser
checks only the empty login, the account type and the bracket suffix. -/
theorem c4_counterexample :
    endsWithStr "foo-bot" "-bot" = true ∧
    (runYearEntries [] [⟨⟨"foo-bot", none, none, some "User"⟩, "Add thing",
        "https://github.com/CircuitVerse/x/pull/1", "2024-06-01T00:00:00Z", none⟩]
      [] [] [] [] "2024-01-01T00:00:00Z" "2025-01-01T00:00:00Z").map (fun c => c.username) =
      ["foo-bot"] := by
  decide

/-- Witness: C4 amended applied at a concrete run with an empty prior snapshot. -/
theorem c4_witness :
    "x[bot]" ∉ (runYearEntries [] [] [] [] [] [] "2024-01-01" "2025-01-01").map
        (fun c => c.username) ∧
    "x[bot]" ∉ (derivePeriodEntries (runYearEntries [] [] [] [] [] [] "2024-01-01" "2025-01-01")
        "2024-12-01").map (fun d => d.username) ∧
    ∀ g ∈ recentActivities (runYearEntries [] [] [] [] [] [] "2024-01-01" "2025-01-01")
        "2024-12-01", ∀ i ∈ g.2, i.username ≠ "x[bot]" :=
  c4_bot_suffix_excluded [] [] [] [] [] [] "2024-01-01" "2025-01-01" "2024-12-01" "2024-12-01"
    "x[bot]" (fun e he => absurd he (List.not_mem_nil e)) (by decide)

end CommunityDashboard
